import Mathlib

/-!
Shallow embedding of `src/label_generator.py` (class ShelfLabelGenerator).

Modelling conventions:
* `meas : String → Int` stands for `draw.textlength(prepare_persian_text(s), font)`;
  the source always measures the reshaped/reordered string, so the composite
  of reshaping and measuring is taken as one abstract deterministic function
  of the joined line text, with pixel widths as integers.
* `heightOf : String → Int` stands for `bbox[3] - bbox[1]` of
  `draw.textbbox((0,0), prepare_persian_text(s), font)`.
* Python floor division `//` is `Int.fdiv`.
* The per-row effects of `generate_labels_from_excel` (pandas parsing, PIL
  drawing and saving) are abstracted as per-row boolean outcomes; the control
  flow of the loop is embedded exactly.
-/

namespace LabelGen

/-- ASCII whitespace recognized by Python `str.split()` / `str.strip()`:
space, tab, newline, carriage return, vertical tab, form feed. -/
def pyIsSpace (c : Char) : Bool :=
  c = ' ' || c = '\t' || c = '\n' || c = '\r' || c = '\x0b' || c = '\x0c'

/-- Accumulator-based splitter behind `pySplit`: walks the character list,
collecting the current word in reverse, and emits maximal runs of
non-whitespace characters, dropping empty pieces. -/
def splitAux : List Char → List Char → List String
  | [], acc => if acc.isEmpty then [] else [String.mk acc.reverse]
  | c :: cs, acc =>
    if pyIsSpace c then
      if acc.isEmpty then splitAux cs [] else String.mk acc.reverse :: splitAux cs []
    else
      splitAux cs (c :: acc)

/-- Python `text.split()` with no separator (src/label_generator.py:126):
split on runs of whitespace, no empty words. -/
def pySplit (s : String) : List String := splitAux s.data []

/-- Python `' '.join(current_line)` (src/label_generator.py:132,139,143). -/
def joinWords (ws : List String) : String := String.intercalate " " ws

/-- `line_spacing = 24` (src/label_generator.py:145). -/
def lineSpacing : Int := 24

/-- State of the greedy wrap loop of `draw_multiline_text`
(src/label_generator.py:127-128): the committed lines and the pending
word buffer `current_line`, each line kept as its word list. -/
structure WrapState where
  lines : List (List String)
  current : List String
  deriving Repr, DecidableEq

/-- One iteration of the wrap loop (src/label_generator.py:130-140):
append the word, measure the joined buffer, and on overflow
(`width > max_width or len(current_line) > 3`) pop the word back when the
buffer has more than one word, commit the buffer, and reset the buffer to
`[word]` — note the source resets to `[word]` in the single-word branch as
well. -/
def wrapStep (meas : String → Int) (maxWidth : Int) (st : WrapState) (word : String) :
    WrapState :=
  if meas (joinWords (st.current ++ [word])) > maxWidth ∨ (st.current ++ [word]).length > 3 then
    { lines := st.lines ++
        [if (st.current ++ [word]).length > 1 then
          (st.current ++ [word]).dropLast
        else
          st.current ++ [word]],
      current := [word] }
  else
    { lines := st.lines, current := st.current ++ [word] }

/-- Greedy line breaking of `draw_multiline_text` (src/label_generator.py:126-143):
fold the wrap step over the words, then commit any nonempty remaining
buffer (`if current_line: lines.append(...)`). -/
def wrapWords (meas : String → Int) (maxWidth : Int) (words : List String) :
    List (List String) :=
  if (words.foldl (wrapStep meas maxWidth) ⟨[], []⟩).current.isEmpty then
    (words.foldl (wrapStep meas maxWidth) ⟨[], []⟩).lines
  else
    (words.foldl (wrapStep meas maxWidth) ⟨[], []⟩).lines ++
      [(words.foldl (wrapStep meas maxWidth) ⟨[], []⟩).current]

/-- The height accumulation of `draw_multiline_text`
(src/label_generator.py:145-156): `total_height += line_height + line_spacing`
per line, then `total_height -= line_spacing` once at the end. -/
def totalHeightOf (heightOf : String → Int) (lines : List (List String)) : Int :=
  (lines.foldl (fun acc l => acc + heightOf (joinWords l) + lineSpacing) 0) - lineSpacing

/-- The drawing loop of `draw_multiline_text` (src/label_generator.py:159-164):
each line is placed at `x_centered = x + (max_width - width) // 2` and the
vertical cursor advances by `line_heights[i] + line_spacing`. -/
def placeLines (meas heightOf : String → Int) (x maxWidth : Int) :
    Int → List (List String) → List (List String × Int × Int)
  | _, [] => []
  | curY, l :: rest =>
    (l, x + (maxWidth - meas (joinWords l)).fdiv 2, curY) ::
      placeLines meas heightOf x maxWidth (curY + heightOf (joinWords l) + lineSpacing) rest

/-- Embedding of `draw_multiline_text` (src/label_generator.py:123-166):
split the text, wrap greedily, compute the total height, start drawing at
`y - total_height // 2`, and return the placed lines together with the
returned total height. The `maxHeight` parameter mirrors the source's
`max_height` argument, which the body never reads. -/
def draw_multiline_text (meas heightOf : String → Int) (x y maxWidth maxHeight : Int)
    (text : String) : List (List String × Int × Int) × Int :=
  (placeLines meas heightOf x maxWidth
      (y - (totalHeightOf heightOf (wrapWords meas maxWidth (pySplit text))).fdiv 2)
      (wrapWords meas maxWidth (pySplit text)),
    totalHeightOf heightOf (wrapWords meas maxWidth (pySplit text)))

/-- The characters deleted by `re.sub(r'[<>:"/\\|?*\t\n\r]', '', filename)`
(src/label_generator.py:220). -/
def invalidFileChars : List Char :=
  ['<', '>', ':', '"', '/', '\\', '|', '?', '*', '\t', '\n', '\r']

/-- Python `str.strip()` on a character list: drop whitespace from both ends. -/
def pyStrip (cs : List Char) : List Char :=
  ((cs.dropWhile pyIsSpace).reverse.dropWhile pyIsSpace).reverse

/-- Embedding of `clean_filename` (src/label_generator.py:216-221): remove
the invalid characters, strip surrounding whitespace, then replace every
remaining space with an underscore. -/
def clean_filename (s : String) : String :=
  String.mk
    ((pyStrip (s.data.filter (fun c => !(invalidFileChars.contains c)))).map
      (fun c => if c = ' ' then '_' else c))

/-- Abstract outcome of the external effects for one spreadsheet row of
`generate_labels_from_excel` (src/label_generator.py:190-207):
whether `float(re.sub(r'[^0-9.]', '', str(row['قیمت'])))` succeeds, whether
`create_label` returns an image (it catches its own exceptions and returns
`None` on failure), and whether `label.save` completes without raising. -/
structure Row where
  priceParses : Bool
  labelCreated : Bool
  saveOk : Bool
  deriving Repr, DecidableEq

/-- One iteration of the row loop (src/label_generator.py:190-207): a parse
or save exception is caught by the per-row handler and counts one failure; a
`None` label counts one failure; otherwise the save succeeds and counts one
success. -/
def processRow (counts : Nat × Nat) (r : Row) : Nat × Nat :=
  if r.priceParses then
    if r.labelCreated then
      if r.saveOk then (counts.1 + 1, counts.2) else (counts.1, counts.2 + 1)
    else (counts.1, counts.2 + 1)
  else (counts.1, counts.2 + 1)

/-- The counter loop of `generate_labels_from_excel`
(src/label_generator.py:185-210): fold the rows from
`success_count = fail_count = 0` and return `(success_count, fail_count)`. -/
def generate_labels_from_excel (rows : List Row) : Nat × Nat :=
  rows.foldl processRow (0, 0)

/-- A concrete measurer for witnesses: width of a string is its number of
characters. -/
def measLen : String → Int := fun s => s.length

/-- A concrete measurer for witnesses: every string measures 40 pixels wide. -/
def measForty : String → Int := fun _ => 40

/-- A concrete height function for witnesses: every line has height 0. -/
def heZero : String → Int := fun _ => 0

/-- A row where every external effect succeeds. -/
def rowOk : Row := ⟨true, true, true⟩

/-- A row whose digit-stripped price does not parse as a number. -/
def rowBadPrice : Row := ⟨false, true, true⟩

/-- Any property preserved by one wrap step is preserved by the whole fold. -/
theorem foldl_wrapStep_inv (meas : String → Int) (mw : Int) (P : WrapState → Prop)
    (hstep : ∀ st w, P st → P (wrapStep meas mw st w)) :
    ∀ (ws : List String) (st : WrapState), P st → P (ws.foldl (wrapStep meas mw) st) := by
  intro ws
  induction ws with
  | nil => intro st h; exact h
  | cons w ws ih => intro st h; exact ih _ (hstep st w h)

/-- A line of `wrapWords` is either a line committed during the fold or the
final buffer committed after the loop. -/
theorem mem_wrapWords_cases (meas : String → Int) (mw : Int) (ws : List String)
    (l : List String) (h : l ∈ wrapWords meas mw ws) :
    l ∈ (ws.foldl (wrapStep meas mw) ⟨[], []⟩).lines
      ∨ l = (ws.foldl (wrapStep meas mw) ⟨[], []⟩).current := by
  unfold wrapWords at h
  by_cases hc : (ws.foldl (wrapStep meas mw) ⟨[], []⟩).current.isEmpty
  · rw [if_pos hc] at h
    exact Or.inl h
  · rw [if_neg hc] at h
    rcases List.mem_append.mp h with h1 | h2
    · exact Or.inl h1
    · exact Or.inr (List.mem_singleton.mp h2)

/-- One wrap step preserves the invariant that every committed line and the
pending buffer hold at most 3 words. -/
theorem wrapStep_len_inv (meas : String → Int) (mw : Int) (st : WrapState) (w : String)
    (h : (∀ l ∈ st.lines, l.length ≤ 3) ∧ st.current.length ≤ 3) :
    (∀ l ∈ (wrapStep meas mw st w).lines, l.length ≤ 3)
      ∧ (wrapStep meas mw st w).current.length ≤ 3 := by
  by_cases hcond :
      meas (joinWords (st.current ++ [w])) > mw ∨ (st.current ++ [w]).length > 3
  · simp only [wrapStep, if_pos hcond]
    refine ⟨?_, by simp⟩
    intro l hl
    rcases List.mem_append.mp hl with h1 | h2
    · exact h.1 l h1
    · have h2' := List.mem_singleton.mp h2
      subst h2'
      by_cases hlen : (st.current ++ [w]).length > 1
      · rw [if_pos hlen]
        have hd : (st.current ++ [w]).dropLast = st.current := by simp
        rw [hd]
        exact h.2
      · rw [if_neg hlen]
        simp only [List.length_append, List.length_cons, List.length_nil] at hlen ⊢
        omega
  · simp only [wrapStep, if_neg hcond]
    push_neg at hcond
    exact ⟨h.1, hcond.2⟩

/-- One wrap step preserves the invariant that every committed line with at
least two words, and the pending buffer when it has at least two words,
measure at most the maximum width. -/
theorem wrapStep_width_inv (meas : String → Int) (mw : Int) (st : WrapState) (w : String)
    (h : (∀ l ∈ st.lines, 2 ≤ l.length → meas (joinWords l) ≤ mw)
      ∧ (2 ≤ st.current.length → meas (joinWords st.current) ≤ mw)) :
    (∀ l ∈ (wrapStep meas mw st w).lines, 2 ≤ l.length → meas (joinWords l) ≤ mw)
      ∧ (2 ≤ (wrapStep meas mw st w).current.length →
          meas (joinWords (wrapStep meas mw st w).current) ≤ mw) := by
  by_cases hcond :
      meas (joinWords (st.current ++ [w])) > mw ∨ (st.current ++ [w]).length > 3
  · simp only [wrapStep, if_pos hcond]
    constructor
    · intro l hl
      rcases List.mem_append.mp hl with h1 | h2
      · exact h.1 l h1
      · have h2' := List.mem_singleton.mp h2
        subst h2'
        by_cases hlen : (st.current ++ [w]).length > 1
        · rw [if_pos hlen]
          have hd : (st.current ++ [w]).dropLast = st.current := by simp
          rw [hd]
          exact fun h2le => h.2 h2le
        · rw [if_neg hlen]
          intro h2le
          exfalso
          simp only [List.length_append, List.length_cons, List.length_nil] at hlen h2le
          omega
    · intro h2le
      simp only [List.length_cons, List.length_nil] at h2le
      omega
  · simp only [wrapStep, if_neg hcond]
    push_neg at hcond
    exact ⟨h.1, fun _ => hcond.1⟩

/-- Closed form of the height fold of `totalHeightOf` for any accumulator. -/
theorem totalHeightOf_foldl (heightOf : String → Int) :
    ∀ (ls : List (List String)) (a : Int),
      ls.foldl (fun acc l => acc + heightOf (joinWords l) + lineSpacing) a
        = a + (ls.map (fun l => heightOf (joinWords l))).sum
          + lineSpacing * (ls.length : Int) := by
  intro ls
  induction ls with
  | nil => intro a; simp
  | cons l ls ih =>
    intro a
    rw [List.foldl_cons, ih, List.map_cons, List.sum_cons, List.length_cons]
    push_cast
    ring

/-- Every entry placed by `placeLines` has draw-origin x equal to
`x + (maxWidth - width) // 2` for its own measured width. -/
theorem placeLines_x_eq (meas heightOf : String → Int) (x mw : Int) :
    ∀ (curY : Int) (ls : List (List String)) (e : List String × Int × Int),
      e ∈ placeLines meas heightOf x mw curY ls →
        e.2.1 = x + (mw - meas (joinWords e.1)).fdiv 2 := by
  intro curY ls
  induction ls generalizing curY with
  | nil => intro e he; simp [placeLines] at he
  | cons l rest ih =>
    intro e he
    rcases List.mem_cons.mp he with he | he
    · subst he; rfl
    · exact ih _ e he

/-- A per-row failure of any of the three external effects increments the
failure counter by exactly one and leaves the success counter unchanged. -/
theorem processRow_fail (c : Nat × Nat) (r : Row)
    (h : r.priceParses = false ∨ r.labelCreated = false ∨ r.saveOk = false) :
    processRow c r = (c.1, c.2 + 1) := by
  rcases r with ⟨p, lc, sv⟩
  cases p <;> cases lc <;> cases sv <;> simp_all [processRow]

/-- Each processed row increments exactly one of the two counters. -/
theorem foldl_processRow_sum (rows : List Row) :
    ∀ c : Nat × Nat,
      (rows.foldl processRow c).1 + (rows.foldl processRow c).2
        = c.1 + c.2 + rows.length := by
  induction rows with
  | nil => intro c; simp
  | cons r rows ih =>
    intro c
    rw [List.foldl_cons, ih]
    rcases r with ⟨p, lc, sv⟩
    cases p <;> cases lc <;> cases sv <;> simp [processRow] <;> omega

/-- Membership in the stripped list implies membership in the original. -/
theorem mem_of_mem_pyStrip (cs : List Char) (c : Char) (h : c ∈ pyStrip cs) : c ∈ cs := by
  unfold pyStrip at h
  rw [List.mem_reverse] at h
  have h2 := (List.dropWhile_sublist pyIsSpace).subset h
  rw [List.mem_reverse] at h2
  exact (List.dropWhile_sublist pyIsSpace).subset h2

/-- Claim C1 (code bug): a single word that alone overflows the maximum
width is committed twice, not once. The wrap loop commits the one-word
buffer but then re-seeds the buffer with the same word, so the final commit
emits it again: with `maxWidth = 1` and a word measuring 2, the committed
lines are `[["WW"], ["WW"]]` and their concatenation is not the original
one-word sequence. -/
theorem wrap_single_overflow_word_duplicated :
    wrapWords measLen 1 ["WW"] = [["WW"], ["WW"]]
      ∧ (wrapWords measLen 1 ["WW"]).flatten ≠ ["WW"] := by
  constructor <;> decide

/-- Claim C2 counterexample: on empty input text the layout routine commits
zero lines but returns total block height -24 (the negated inter-line
spacing), not zero. -/
theorem empty_text_height_not_zero :
    (draw_multiline_text measLen measLen 0 0 100 50 "").1 = []
      ∧ (draw_multiline_text measLen measLen 0 0 100 50 "").2 = -24
      ∧ (draw_multiline_text measLen measLen 0 0 100 50 "").2 ≠ 0 := by
  refine ⟨?_, ?_, ?_⟩ <;> decide

/-- Claim C2 (amended): for input text that splits into zero words, the
layout routine commits zero lines and returns total block height
`-lineSpacing = -24` (the final `total_height -= line_spacing` runs on the
zero accumulator). -/
theorem empty_text_zero_lines_height_neg_spacing (meas heightOf : String → Int)
    (x y mw mh : Int) (text : String) (h : pySplit text = []) :
    draw_multiline_text meas heightOf x y mw mh text = ([], -24) := by
  unfold draw_multiline_text
  rw [h]
  rfl

/-- Witness for the amended C2 at the empty string. -/
theorem empty_text_zero_lines_witness :
    pySplit "" = [] ∧ draw_multiline_text measLen measLen 0 0 100 50 "" = ([], -24) :=
  ⟨by decide, empty_text_zero_lines_height_neg_spacing measLen measLen 0 0 100 50 "" (by decide)⟩

/-- Claim C3: whenever at least one line is committed, the returned total
block height equals the sum of the per-line heights plus the inter-line
spacing times (number of lines minus one). -/
theorem draw_total_height_eq (meas heightOf : String → Int) (x y mw mh : Int)
    (text : String) (h : wrapWords meas mw (pySplit text) ≠ []) :
    (draw_multiline_text meas heightOf x y mw mh text).2
      = ((wrapWords meas mw (pySplit text)).map (fun l => heightOf (joinWords l))).sum
        + lineSpacing * (((wrapWords meas mw (pySplit text)).length - 1 : Nat) : Int) := by
  have hlen : 1 ≤ (wrapWords meas mw (pySplit text)).length := List.length_pos.mpr h
  have h2 : (draw_multiline_text meas heightOf x y mw mh text).2
      = totalHeightOf heightOf (wrapWords meas mw (pySplit text)) := rfl
  rw [h2]
  unfold totalHeightOf
  rw [totalHeightOf_foldl]
  rw [Nat.cast_sub hlen, Nat.cast_one]
  ring

/-- Witness for C3 on a one-word text. -/
theorem draw_total_height_eq_witness :
    wrapWords measLen 100 (pySplit "w") ≠ []
      ∧ (draw_multiline_text measLen measLen 0 0 100 50 "w").2
          = ((wrapWords measLen 100 (pySplit "w")).map (fun l => measLen (joinWords l))).sum
            + lineSpacing * (((wrapWords measLen 100 (pySplit "w")).length - 1 : Nat) : Int) :=
  ⟨by decide, draw_total_height_eq measLen measLen 0 0 100 50 "w" (by decide)⟩

/-- Claim C4: every committed line holds at most 3 words (the
words-per-line cap), so no line exceeds the cap except trivially a
single-word line. -/
theorem wrap_line_words_le_three (meas : String → Int) (mw : Int) (ws : List String)
    (l : List String) (h : l ∈ wrapWords meas mw ws) : l.length ≤ 3 := by
  have hinv := foldl_wrapStep_inv meas mw
    (fun st => (∀ l ∈ st.lines, l.length ≤ 3) ∧ st.current.length ≤ 3)
    (wrapStep_len_inv meas mw) ws ⟨[], []⟩ (by constructor <;> simp)
  rcases mem_wrapWords_cases meas mw ws l h with h1 | h2
  · exact hinv.1 l h1
  · rw [h2]; exact hinv.2

/-- Witness for C4 on a one-word sequence. -/
theorem wrap_line_words_le_three_witness :
    ["w"] ∈ wrapWords measLen 100 ["w"] ∧ (["w"] : List String).length ≤ 3 :=
  ⟨by decide, wrap_line_words_le_three measLen 100 ["w"] ["w"] (by decide)⟩

/-- Claim C5: every placed line's horizontal draw origin equals
`x + (maxWidth - measured line width) // 2`, i.e. the line is centered
within the box width around the anchor. -/
theorem draw_line_x_centered (meas heightOf : String → Int) (x y mw mh : Int)
    (text : String) (e : List String × Int × Int)
    (he : e ∈ (draw_multiline_text meas heightOf x y mw mh text).1) :
    e.2.1 = x + (mw - meas (joinWords e.1)).fdiv 2 :=
  placeLines_x_eq meas heightOf x mw _ _ e he

/-- Witness for C5: anchor x = 100, maxWidth = 200, a single word measuring
40 pixels is drawn at origin x = 180. -/
theorem draw_line_x_centered_witness :
    (["w"], (180 : Int), (0 : Int)) ∈ (draw_multiline_text measForty heZero 100 0 200 100 "w").1
      ∧ ((["w"], (180 : Int), (0 : Int)) : List String × Int × Int).2.1
          = 100 + ((200 : Int) - measForty (joinWords ["w"])).fdiv 2 :=
  ⟨by decide, draw_line_x_centered measForty heZero 100 0 200 100 "w" (["w"], 180, 0) (by decide)⟩

/-- Claim C6: the layout routine never reads its maximum-height argument:
two calls differing only in `maxHeight` return identical placed lines and
identical total height. -/
theorem draw_multiline_ignores_max_height (meas heightOf : String → Int)
    (x y mw mh1 mh2 : Int) (text : String) :
    draw_multiline_text meas heightOf x y mw mh1 text
      = draw_multiline_text meas heightOf x y mw mh2 text := rfl

/-- Claim C7: a row on which any external effect fails (price does not
parse, label creation fails, or saving raises) contributes exactly one
failure and no success, and the remaining rows are still processed from
that updated counter state — no row failure aborts the run. -/
theorem row_failure_isolated (pre : List Row) (r : Row) (post : List Row)
    (h : r.priceParses = false ∨ r.labelCreated = false ∨ r.saveOk = false) :
    generate_labels_from_excel (pre ++ r :: post)
      = post.foldl processRow
          ((generate_labels_from_excel pre).1, (generate_labels_from_excel pre).2 + 1) := by
  unfold generate_labels_from_excel
  rw [List.foldl_append, List.foldl_cons, processRow_fail _ _ h]

/-- Witness for C7: a bad-price row between two good rows yields exactly
one failure and the following row still succeeds, giving counts (2, 1). -/
theorem row_failure_isolated_witness :
    generate_labels_from_excel ([rowOk] ++ rowBadPrice :: [rowOk])
        = [rowOk].foldl processRow
            ((generate_labels_from_excel [rowOk]).1, (generate_labels_from_excel [rowOk]).2 + 1)
      ∧ generate_labels_from_excel ([rowOk] ++ rowBadPrice :: [rowOk]) = (2, 1) :=
  ⟨row_failure_isolated [rowOk] rowBadPrice [rowOk] (Or.inl rfl), by decide⟩

/-- Claim C8: every character of a cleaned filename differs from the
path-separator and glob characters and from the space character: slashes,
backslashes, asterisks and question marks are stripped, and every
remaining space is replaced by an underscore. -/
theorem clean_filename_no_bad_chars (s : String) (c : Char)
    (hc : c ∈ (clean_filename s).data) :
    c ≠ '/' ∧ c ≠ '\\' ∧ c ≠ '*' ∧ c ≠ '?' ∧ c ≠ ' ' := by
  unfold clean_filename at hc
  rcases List.mem_map.mp hc with ⟨d, hd, rfl⟩
  have hmem : d ∈ s.data.filter (fun c => !(invalidFileChars.contains c)) :=
    mem_of_mem_pyStrip _ d hd
  have hnot : d ∉ invalidFileChars := by
    have hp := (List.mem_filter.mp hmem).2
    simpa using hp
  by_cases hsp : d = ' '
  · subst hsp
    simp
  · rw [if_neg hsp]
    refine ⟨fun h => ?_, fun h => ?_, fun h => ?_, fun h => ?_, hsp⟩ <;> subst h <;>
      exact hnot (by decide)

/-- Witness for C8 on a name with a space and an asterisk. -/
theorem clean_filename_no_bad_chars_witness :
    'a' ∈ (clean_filename "a b*c").data
      ∧ ('a' ≠ '/' ∧ 'a' ≠ '\\' ∧ 'a' ≠ '*' ∧ 'a' ≠ '?' ∧ 'a' ≠ ' ')
      ∧ clean_filename "a b*c" = "a_bc" :=
  ⟨by decide, clean_filename_no_bad_chars "a b*c" 'a' (by decide), by decide⟩

/-- Claim C9: every committed line with at least two words measures at most
the maximum width; only single-word lines may exceed it. -/
theorem wrap_multiword_width_le (meas : String → Int) (mw : Int) (ws : List String)
    (l : List String) (hmem : l ∈ wrapWords meas mw ws) (hlen : 2 ≤ l.length) :
    meas (joinWords l) ≤ mw := by
  have hinv := foldl_wrapStep_inv meas mw
    (fun st => (∀ l ∈ st.lines, 2 ≤ l.length → meas (joinWords l) ≤ mw)
      ∧ (2 ≤ st.current.length → meas (joinWords st.current) ≤ mw))
    (wrapStep_width_inv meas mw) ws ⟨[], []⟩ (by constructor <;> simp)
  rcases mem_wrapWords_cases meas mw ws l hmem with h1 | h2
  · exact hinv.1 l h1 hlen
  · rw [h2] at hlen ⊢
    exact hinv.2 hlen

/-- Witness for C9 on a two-word line that fits. -/
theorem wrap_multiword_width_le_witness :
    ["a", "b"] ∈ wrapWords measLen 100 ["a", "b"]
      ∧ 2 ≤ (["a", "b"] : List String).length
      ∧ measLen (joinWords ["a", "b"]) ≤ 100 :=
  ⟨by decide, by decide,
    wrap_multiword_width_le measLen 100 ["a", "b"] ["a", "b"] (by decide) (by decide)⟩

/-- Claim C10: the success and failure counters returned by the row loop
always sum to the number of rows processed: each row increments exactly one
of the two. -/
theorem counts_sum_eq_rows (rows : List Row) :
    (generate_labels_from_excel rows).1 + (generate_labels_from_excel rows).2
      = rows.length := by
  unfold generate_labels_from_excel
  have h := foldl_processRow_sum rows (0, 0)
  simpa using h

end LabelGen
